import Mathlib

/-!
Verification of the Timeseria core against its specification.

This file shallowly embeds the parts of the Timeseria source that the
checked claims are about:

* `src/timeseria/datastructures.py` — `Serie.append`, `TimePointSerie.append`,
  `Slot.__init__` (claims about type uniformity, time ordering and slot
  construction);
* `src/timeseria/models.py` — `get_periodicity_index` and
  `PeriodicAverageForecaster._forecast` / `_fit`;
* `src/timeseria/models/reconstructors.py` — `Reconstructor._apply`,
  `PeriodicAverageReconstructor._fit` / `_reconstruct`;
* `src/timeseria/models/anomaly_detectors.py` —
  `ForecasterAnomalyDetector._fit` / `_apply`.

Python floats are modelled as exact rationals (ℚ); Python exceptions are
modelled with an explicit error type and `Except`.  Python `dict`s keyed by
integers are modelled as insertion-ordered association lists.  The repository
ships two generations of the code base; a few collaborating modules of the
newer generation (`utilities.py`, `time.py`, the newer `datastructures.py`,
`models/forecasters.py`, `models/base.py`) are not present under `src/`, so
the handful of facts needed from them are modelled from the specification and
marked as such in their doc comments.
-/

/-- Python exceptions raised by the embedded code.  `orderError` stands for the
`ValueError` raised on an out-of-order or duplicate element, which the spec
error taxonomy calls `OrderError`. -/
inductive PyError where
  | typeError
  | orderError
  | valueError
  | keyError
  | indexError
  | zeroDivisionError
  | nameError
  | exception
  deriving DecidableEq, Repr

/-- Lookup in an insertion-ordered association list (a Python `dict`). -/
def alookup {κ α : Type} [DecidableEq κ] : List (κ × α) → κ → Option α
  | [], _ => none
  | (k, v) :: rest, q => if k = q then some v else alookup rest q

/-- Subscript access `d[k]` on a Python `dict`: raises `KeyError` when the key
is absent.  Used for `self.data['averages'][periodicity_index]`. -/
def lookupAvg (m : List (ℤ × ℚ)) (k : ℤ) : Except PyError ℚ :=
  match alookup m k with
  | some v => Except.ok v
  | none => Except.error PyError.keyError

/-- Python `int(x)` on a real number: truncation toward zero. -/
def ratTrunc (q : ℚ) : ℤ :=
  if 0 ≤ q then ((q.num.toNat / q.den : ℕ) : ℤ)
  else -(((-q.num).toNat / q.den : ℕ) : ℤ)

/-- Embeds `get_periodicity_index` (src/timeseria/models.py, lines 47–110) for
a plain numeric resolution `R` in seconds (the `else` branch of the
resolution-dispatch; `TimeUnit` resolutions are out of the claims' scope).
`P` is the periodicity, `t` the time point's epoch seconds.  `dstOffset` is
the active DST offset of the local datetime at `t` in seconds — in the source
it is `time_point.dt.dst()`, which consults the external timezone database,
so it is supplied here as an argument; a real timezone's DST timedelta has
`days == 0`, i.e. `0 ≤ dstOffset < 86400`, and the source raises on anything
else. -/
def get_periodicity_index (t R : ℚ) (P : ℕ) (dstOffset : ℚ) (dstAffected : Bool) :
    Except PyError ℤ :=
  if dstAffected = false then
    Except.ok ((ratTrunc (t / R)).emod P)
  else if dstOffset = 0 then
    -- no active DST
    Except.ok ((ratTrunc (t / R)).emod P)
  else if ¬ (0 ≤ dstOffset ∧ dstOffset < 86400) then
    -- dst timedelta with days ≠ 0
    Except.error PyError.exception
  else if 3600 < R then
    Except.error PyError.exception
  else
    Except.ok ((ratTrunc ((t + dstOffset) / R)).emod P)

/-- The phase computed by `get_periodicity_index` when `dst_affected` is false:
`int(t / resolution_s) % periodicity` with Python semantics. -/
def phaseNoDst (t R : ℚ) (P : ℕ) : ℤ :=
  (ratTrunc (t / R)).emod P

theorem get_periodicity_index_false (t R : ℚ) (P : ℕ) (d : ℚ) :
    get_periodicity_index t R P d false = Except.ok (phaseNoDst t R P) := rfl

theorem ratTrunc_eq_floor_of_nonneg (q : ℚ) (h : 0 ≤ q) : ratTrunc q = ⌊q⌋ := by
  have hnum : 0 ≤ q.num := Rat.num_nonneg.mpr h
  rw [Rat.floor_def]
  rw [ratTrunc, if_pos h]
  rw [Int.natCast_div, Int.toNat_of_nonneg hnum]

theorem phaseNoDst_range (t R : ℚ) (P : ℕ) (hP : 0 < P) :
    0 ≤ phaseNoDst t R P ∧ phaseNoDst t R P < P := by
  have hPne : (P : ℤ) ≠ 0 := by exact_mod_cast hP.ne.symm
  have hPpos : (0 : ℤ) < P := by exact_mod_cast hP
  exact ⟨Int.emod_nonneg _ hPne, Int.emod_lt_of_pos _ hPpos⟩

/-- C6 counterexample: at `t = -60`, `R = 40`, `P = 4` the source computes
`int(-1.5) % 4 = (-1) % 4 = 3` (Python `int` truncates toward zero), while the
claimed `⌊t / R⌋ mod P = (-2) mod 4 = 2`. -/
theorem c6_phase_counterexample :
    get_periodicity_index (-60) 40 4 0 false = Except.ok 3 ∧
      (⌊((-60 : ℚ) / 40)⌋).emod 4 = 2 ∧ (3 : ℤ) ≠ 2 := by
  refine ⟨?_, ?_, by decide⟩
  · show Except.ok ((ratTrunc ((-60 : ℚ) / 40)).emod 4) = Except.ok 3
    norm_num [ratTrunc]
  · norm_num

/-- C6 (amended): with `dst_affected` false, the phase equals
`trunc(t / R) mod P` where `trunc` rounds toward zero (Python `int`); this
agrees with the claimed `⌊t / R⌋ mod P` whenever `t / R` is nonnegative.  For
any `t`, `R`, `P > 0` and any DST situation, every phase the function returns
lies in `[0, P)`. -/
theorem c6_phase_trunc_and_range (t R : ℚ) (P : ℕ) (doff : ℚ) (d : Bool)
    (hP : 0 < P) :
    get_periodicity_index t R P doff false = Except.ok ((ratTrunc (t / R)).emod P) ∧
      (0 ≤ t / R →
        get_periodicity_index t R P doff false = Except.ok ((⌊t / R⌋).emod P)) ∧
      (∀ r : ℤ, get_periodicity_index t R P doff d = Except.ok r →
        0 ≤ r ∧ r < P) := by
  refine ⟨rfl, ?_, ?_⟩
  · intro hq
    rw [get_periodicity_index_false, phaseNoDst, ratTrunc_eq_floor_of_nonneg _ hq]
  · intro r hr
    cases d with
    | false =>
      rw [get_periodicity_index_false] at hr
      cases hr
      exact phaseNoDst_range t R P hP
    | true =>
      rw [get_periodicity_index] at hr
      simp only [Bool.true_eq_false, if_false] at hr
      by_cases h0 : doff = 0
      · rw [if_pos h0] at hr
        cases hr
        exact phaseNoDst_range t R P hP
      · rw [if_neg h0] at hr
        by_cases h1 : ¬ (0 ≤ doff ∧ doff < 86400)
        · rw [if_pos h1] at hr; cases hr
        · rw [if_neg h1] at hr
          by_cases h2 : 3600 < R
          · rw [if_pos h2] at hr; cases hr
          · rw [if_neg h2] at hr
            cases hr
            exact phaseNoDst_range (t + doff) R P hP

/-- C6 witness: the amended theorem applied at `t = 5`, `R = 2`, `P = 3`. -/
theorem c6_phase_trunc_and_range_witness :
    0 < 3 ∧
      (get_periodicity_index 5 2 3 0 false =
          Except.ok ((ratTrunc ((5 : ℚ) / 2)).emod 3) ∧
        (0 ≤ (5 : ℚ) / 2 →
          get_periodicity_index 5 2 3 0 false = Except.ok ((⌊(5 : ℚ) / 2⌋).emod 3)) ∧
        (∀ r : ℤ, get_periodicity_index 5 2 3 0 false = Except.ok r →
          0 ≤ r ∧ r < 3)) :=
  ⟨by decide, c6_phase_trunc_and_range 5 2 3 0 false (by decide)⟩

/-!
Datastructures: `Serie`, `TimePointSerie`, `Slot`
(src/timeseria/datastructures.py).
-/

/-- The Python classes of the Point lattice in
src/timeseria/datastructures.py: `Point`, `TimePoint(Point)`,
`DataPoint(Point)`, `DataTimePoint(DataPoint, TimePoint)`. -/
inductive PyClass where
  | point
  | timePoint
  | dataPoint
  | dataTimePoint
  deriving DecidableEq, Repr

/-- Python `isinstance(x, C)`: the class of `x` equals `C` or is a (transitive)
subclass of it. -/
def PyClass.isSubclassOf : PyClass → PyClass → Bool
  | _, .point => true
  | .timePoint, .timePoint => true
  | .dataTimePoint, .timePoint => true
  | .dataPoint, .dataPoint => true
  | .dataTimePoint, .dataPoint => true
  | .dataTimePoint, .dataTimePoint => true
  | _, _ => false

/-- Whether the class implements `__gt__` (`TimePoint.__gt__`, inherited by
`DataTimePoint`; `Point` and `DataPoint` implement neither `__gt__` nor
`__succedes__`). -/
def PyClass.hasGt : PyClass → Bool
  | .timePoint => true
  | .dataTimePoint => true
  | _ => false

/-- An element appended to a generic `Serie`: its Python class and its `t`
coordinate (used by `TimePoint.__gt__`; only classes with `hasGt` read it). -/
structure PyObj where
  cls : PyClass
  t : ℚ
  deriving DecidableEq, Repr

/-- State of a generic `Serie` (src/timeseria/datastructures.py, lines 17–66):
the `__TYPE__` attribute (`none` until the first append sets it to the exact
class of the first element) and the underlying list. -/
structure Serie where
  tipe : Option PyClass
  items : List PyObj
  deriving DecidableEq, Repr

/-- Embeds `Serie.append` (src/timeseria/datastructures.py, lines 38–66):
set `__TYPE__` from the first element if unset, check
`isinstance(item, __TYPE__)`, then check succession against the last element —
for the Point lattice there is no `__succedes__`, so the `item > self[-1]`
comparison is used, which is `TypeError` for classes without `__gt__`. -/
def Serie.append (s : Serie) (item : PyObj) : Except PyError Serie :=
  let tipe := match s.tipe with
    | none => item.cls
    | some T => T
  if ¬ item.cls.isSubclassOf tipe then Except.error PyError.typeError
  else
    match s.items.getLast? with
    | none => Except.ok ⟨some tipe, s.items ++ [item]⟩
    | some last =>
      if item.cls.hasGt then
        if last.t < item.t then Except.ok ⟨some tipe, s.items ++ [item]⟩
        else Except.error PyError.orderError
      else Except.error PyError.typeError

/-- State of a `TimePointSerie` (src/timeseria/datastructures.py, lines
212–240): the `prev_t` attribute (absent before the first append) and the
underlying list of `t` values of its TimePoints. -/
structure TimePointSerie where
  prev_t : Option ℚ
  items : List ℚ
  deriving DecidableEq, Repr

/-- The parent (`Serie`) part of a `TimePointSerie` append: the type check
passes for a TimePoint and succession falls through to `TimePoint.__gt__`. -/
def TimePointSerie.superAppend (s : TimePointSerie) (x : ℚ) :
    Except PyError TimePointSerie :=
  match s.items.getLast? with
  | none => Except.ok ⟨s.prev_t, s.items ++ [x]⟩
  | some last =>
    if last < x then Except.ok ⟨s.prev_t, s.items ++ [x]⟩
    else Except.error PyError.orderError

/-- Embeds `TimePointSerie.append` (src/timeseria/datastructures.py, lines
226–240): against `prev_t`, raise on `item.t < prev_t` (out of order) and on
`item.t == prev_t` (duplicate), then update `prev_t` and call the parent
append.  Both `ValueError`s are the spec's `OrderError`. -/
def TimePointSerie.append (s : TimePointSerie) (x : ℚ) :
    Except PyError TimePointSerie :=
  match s.prev_t with
  | some p =>
    if x < p then Except.error PyError.orderError
    else if x = p then Except.error PyError.orderError
    else TimePointSerie.superAppend ⟨some x, s.items⟩ x
  | none => TimePointSerie.superAppend ⟨some x, s.items⟩ x

/-- C1 (confirmed): on a `TimePointSerie` with at least one element (so
`prev_t` is the last element's `t`), appending a TimePoint `x` raises
`OrderError` exactly when `x.t` is less than or equal to the last element's
`t`, and otherwise extends the series by exactly that element. -/
theorem c1_timepoint_append_order (s : TimePointSerie) (l x : ℚ)
    (hWF : s.prev_t = s.items.getLast?) (hlast : s.items.getLast? = some l) :
    ((x < l ∨ x = l) → s.append x = Except.error PyError.orderError) ∧
      (l < x → s.append x = Except.ok ⟨some x, s.items ++ [x]⟩) := by
  have hp : s.prev_t = some l := by rw [hWF, hlast]
  constructor
  · intro h
    simp only [TimePointSerie.append, hp]
    rcases h with h | h
    · rw [if_pos h]
    · rw [if_neg (by simp [h]), if_pos h]
  · intro h
    simp only [TimePointSerie.append, hp]
    rw [if_neg (not_lt.mpr h.le), if_neg h.ne.symm]
    simp only [TimePointSerie.superAppend, hlast]
    rw [if_pos h]

/-- C1 witness: appending `t = 7` after `[1, 5]` succeeds, while the theorem
also certifies that `t ≤ 5` would raise `OrderError`. -/
theorem c1_timepoint_append_order_witness :
    (⟨some 5, [1, 5]⟩ : TimePointSerie).prev_t = [(1 : ℚ), 5].getLast? ∧
      ([(1 : ℚ), 5].getLast? = some 5) ∧
      ((((7 : ℚ) < 5 ∨ (7 : ℚ) = 5) →
          TimePointSerie.append ⟨some 5, [1, 5]⟩ 7 =
            Except.error PyError.orderError) ∧
        ((5 : ℚ) < 7 →
          TimePointSerie.append ⟨some 5, [1, 5]⟩ 7 =
            Except.ok ⟨some 7, [1, 5] ++ [7]⟩)) :=
  ⟨rfl, rfl,
    c1_timepoint_append_order ⟨some 5, [1, 5]⟩ 5 7 rfl rfl⟩

/-- C2 counterexample: a `Serie` whose first element is a `TimePoint` accepts
a subsequent `DataTimePoint` (a strict subclass) without any `TypeError`,
because the source checks `isinstance(item, self.__TYPE__)`; the resulting
second element's exact type differs from the series type `TimePoint`. -/
theorem c2_exact_type_counterexample :
    (Serie.append ⟨none, []⟩ ⟨PyClass.timePoint, 1⟩ =
        Except.ok ⟨some PyClass.timePoint, [⟨PyClass.timePoint, 1⟩]⟩) ∧
      (Serie.append ⟨some PyClass.timePoint, [⟨PyClass.timePoint, 1⟩]⟩
          ⟨PyClass.dataTimePoint, 2⟩ =
        Except.ok ⟨some PyClass.timePoint,
          [⟨PyClass.timePoint, 1⟩, ⟨PyClass.dataTimePoint, 2⟩]⟩) ∧
      PyClass.dataTimePoint ≠ PyClass.timePoint := by
  refine ⟨?_, ?_, by decide⟩ <;>
    norm_num [Serie.append, PyClass.isSubclassOf, PyClass.hasGt]

/-- C2 (amended): once the series type is set to `T`, appending an element
whose class is neither `T` nor a subclass of `T` raises `TypeError`, and any
successful append preserves the invariant that every element is an *instance*
of `T` (`isinstance` semantics, so subtype covariance is permitted). -/
theorem c2_instance_uniformity (s : Serie) (T : PyClass) (x : PyObj)
    (hT : s.tipe = some T) :
    (x.cls.isSubclassOf T = false →
        s.append x = Except.error PyError.typeError) ∧
      (∀ s2, s.append x = Except.ok s2 →
        (∀ y ∈ s.items, y.cls.isSubclassOf T = true) →
        ∀ y ∈ s2.items, y.cls.isSubclassOf T = true) := by
  constructor
  · intro hbad
    simp only [Serie.append, hT]
    simp [hbad]
  · intro s2 hok hall y hy
    simp only [Serie.append, hT] at hok
    by_cases hsub : x.cls.isSubclassOf T
    · rw [if_neg (by simp [hsub])] at hok
      have hy2 : y ∈ s.items ++ [x] := by
        split at hok
        · cases hok
          exact hy
        · split at hok
          · split at hok
            · cases hok
              exact hy
            · cases hok
          · cases hok
      rcases List.mem_append.mp hy2 with h | h
      · exact hall y h
      · rcases List.mem_singleton.mp h with rfl
        exact hsub
    · rw [if_pos (by simp [hsub])] at hok
      cases hok

/-- C2 witness: the amended theorem applied to the counterexample series. -/
theorem c2_instance_uniformity_witness :
    (⟨some PyClass.timePoint, [⟨PyClass.timePoint, 1⟩]⟩ : Serie).tipe =
        some PyClass.timePoint ∧
      ((PyClass.dataTimePoint.isSubclassOf PyClass.timePoint = false →
          Serie.append ⟨some PyClass.timePoint, [⟨PyClass.timePoint, 1⟩]⟩
            ⟨PyClass.dataTimePoint, 2⟩ = Except.error PyError.typeError) ∧
        (∀ s2,
          Serie.append ⟨some PyClass.timePoint, [⟨PyClass.timePoint, 1⟩]⟩
            ⟨PyClass.dataTimePoint, 2⟩ = Except.ok s2 →
          (∀ y ∈ [(⟨PyClass.timePoint, 1⟩ : PyObj)],
            y.cls.isSubclassOf PyClass.timePoint = true) →
          ∀ y ∈ s2.items, y.cls.isSubclassOf PyClass.timePoint = true)) :=
  ⟨rfl,
    c2_instance_uniformity ⟨some PyClass.timePoint, [⟨PyClass.timePoint, 1⟩]⟩
      PyClass.timePoint ⟨PyClass.dataTimePoint, 2⟩ rfl⟩

/-- A `Point` (src/timeseria/datastructures.py, lines 99–125): an
insertion-ordered mapping from coordinate names to values (the keyword
arguments set as attributes). -/
structure Point where
  coords : List (String × ℚ)
  deriving DecidableEq, Repr

/-- The coordinate names of a Point (`self.coordinates.keys()`). -/
def Point.keys (p : Point) : List String :=
  p.coords.map Prod.fst

/-- Python `set(a.keys()) == set(b.keys())`. -/
def sameKeySet (a b : Point) : Bool :=
  a.keys.all (fun k => b.keys.contains k) && b.keys.all (fun k => a.keys.contains k)

/-- Embeds `Point.__eq__` (src/timeseria/datastructures.py, lines 119–125):
`self.coordinates == other.coordinates` is Python dict equality — the same
key set with equal values (the per-coordinate loop that follows rechecks the
values). -/
def Point.pyEq (a b : Point) : Bool :=
  sameKeySet a b &&
    a.keys.all (fun k => decide (alookup a.coords k = alookup b.coords k))

/-- A constructed `Slot` (src/timeseria/datastructures.py, lines 332–353);
the `end` field of the source is called `stop` because `end` is a Lean
keyword. -/
structure Slot where
  start : Point
  stop : Point
  deriving DecidableEq, Repr

/-- Embeds `Slot.__init__` (src/timeseria/datastructures.py, lines 336–353)
for Point arguments (non-Point arguments raise `TypeError`; the optional
`span` is orthogonal to the claim): reject differing coordinate key sets and
reject `start == end`; everything else is accepted. -/
def slotInit (start stop : Point) : Except PyError Slot :=
  if ¬ sameKeySet start stop then Except.error PyError.valueError
  else if start.pyEq stop then Except.error PyError.valueError
  else Except.ok ⟨start, stop⟩

/-- C9 counterexample: a Slot whose start `t = 2` is *greater* than its end
`t = 1` is accepted by the constructor — only `start == end` is rejected, so
constructed Slots are not guaranteed to satisfy `start < end`. -/
theorem c9_slot_order_counterexample :
    slotInit ⟨[("t", 2)]⟩ ⟨[("t", 1)]⟩ =
        Except.ok ⟨⟨[("t", 2)]⟩, ⟨[("t", 1)]⟩⟩ ∧
      (2 : ℚ) > 1 := by
  constructor
  · norm_num [slotInit, sameKeySet, Point.pyEq, Point.keys, alookup]
  · norm_num

/-- C9 (amended): `Slot` construction fails exactly when the coordinate key
sets differ or `start == end` (Python equality); in particular `start` equal
to `end` is rejected, but `start` greater than `end` is accepted, so a
constructed Slot need not satisfy `start < end`. -/
theorem c9_slot_init_cases (a b : Point) :
    (slotInit a b = Except.error PyError.valueError ↔
        (sameKeySet a b = false ∨ a.pyEq b = true)) ∧
      (sameKeySet a b = true → a.pyEq b = false →
        slotInit a b = Except.ok ⟨a, b⟩) := by
  constructor
  · constructor
    · intro h
      by_cases hk : sameKeySet a b
      · refine Or.inr ?_
        by_cases he : a.pyEq b
        · exact he
        · rw [slotInit, if_neg (by simp [hk]), if_neg (by simp [he])] at h
          cases h
      · exact Or.inl (by simpa using hk)
    · intro h
      rcases h with h | h
      · rw [slotInit, if_pos (by simp [h])]
      · by_cases hk : sameKeySet a b
        · rw [slotInit, if_neg (by simp [hk]), if_pos h]
        · rw [slotInit, if_pos (by simp [hk])]
  · intro hk he
    rw [slotInit, if_neg (by simp [hk]), if_neg (by simp [he])]

/-- C9 witness: the amended theorem applied to the out-of-order slot, which is
accepted. -/
theorem c9_slot_init_cases_witness :
    sameKeySet ⟨[("t", 2)]⟩ ⟨[("t", 1)]⟩ = true ∧
      Point.pyEq ⟨[("t", 2)]⟩ ⟨[("t", 1)]⟩ = false ∧
      slotInit ⟨[("t", 2)]⟩ ⟨[("t", 1)]⟩ =
        Except.ok ⟨⟨[("t", 2)]⟩, ⟨[("t", 1)]⟩⟩ := by
  have hk : sameKeySet ⟨[("t", 2)]⟩ ⟨[("t", 1)]⟩ = true := by
    norm_num [sameKeySet, Point.keys]
  have he : Point.pyEq ⟨[("t", 2)]⟩ ⟨[("t", 1)]⟩ = false := by
    norm_num [Point.pyEq, sameKeySet, Point.keys, alookup]
  exact ⟨hk, he, (c9_slot_init_cases ⟨[("t", 2)]⟩ ⟨[("t", 1)]⟩).2 hk he⟩

/-!
Model layer: the periodic-average forecaster, reconstructor and anomaly
detector operate on univariate regular time series.  An element is modelled
by its `t` coordinate (for slots: the start `t` consulted by the phase
computation), its single data value `data[label]`, and its data indexes
(`data_loss`, `data_reconstructed`, `anomaly` — per spec §3/§9 a small record
of optional numeric fields; `none` is an absent index / Python `None`).
-/

structure TSItem where
  t : ℚ
  val : ℚ
  dataLoss : Option ℚ
  dataReconstructed : Option ℚ
  anomaly : Option ℚ
  deriving DecidableEq, Repr

/-- Python list subscript `l[j]`: negative indexes count from the end; an
index out of range (after that wrap) raises `IndexError`. -/
def pyGet {α : Type} (l : List α) (j : ℤ) : Except PyError α :=
  let i : ℤ := if j < 0 then j + l.length else j
  if 0 ≤ i then
    match l[i.toNat]? with
    | some x => Except.ok x
    | none => Except.error PyError.indexError
  else Except.error PyError.indexError

/-- Evaluation helper: `Int.toNat` of a numeral. -/
theorem int_toNat_lit (n : ℕ) :
    Int.toNat (no_index (OfNat.ofNat n)) = OfNat.ofNat n := rfl

/-- A DST-offset oracle: maps an epoch timestamp to the DST offset (seconds)
of its local datetime, standing for the external timezone database that
`dt.dst()` consults.  `dstfZero` is the oracle of a DST-free timezone. -/
def dstfZero : ℚ → ℚ := fun _ => 0

/-- The fitted data of a `PeriodicAverageForecaster`
(src/timeseria/models.py, lines 987–1043): `periodicity`, `dst_affected`,
`window` and the per-phase `averages`. -/
structure PAFData where
  periodicity : ℕ
  dst_affected : Bool
  window : ℕ
  averages : List (ℤ × ℚ)
  deriving DecidableEq, Repr

/-- Embeds the window selection of `PeriodicAverageForecaster._fit`
(src/timeseria/models.py, lines 1008–1013): `if window:` keeps a truthy
(nonzero) window argument, otherwise the periodicity is used. -/
def pafFitWindow (window : Option ℕ) (P : ℕ) : ℕ :=
  match window with
  | some w => if w = 0 then P else w
  | none => P

/-- The `diffs` loop of `PeriodicAverageForecaster._forecast`
(src/timeseria/models.py, lines 1064–1069, the `window_start is None` branch):
for `j in range(window)` accumulate
`timeseries[-(window - j)].data[key] - averages[phase]`.  `j` counts up and
`n` is the remaining iteration count. -/
def pafDiffsLoop (P : ℕ) (dst : Bool) (dstf : ℚ → ℚ) (R : ℚ)
    (avgs : List (ℤ × ℚ)) (W : ℕ) (ser : List TSItem) :
    ℕ → ℕ → ℚ → Except PyError ℚ
  | _, 0, acc => Except.ok acc
  | j, n + 1, acc =>
    match pyGet ser (-((W : ℤ) - (j : ℤ))) with
    | Except.error e => Except.error e
    | Except.ok it =>
      match get_periodicity_index it.t R P (dstf it.t) dst with
      | Except.error e => Except.error e
      | Except.ok ph =>
        match lookupAvg avgs ph with
        | Except.error e => Except.error e
        | Except.ok av =>
          pafDiffsLoop P dst dstf R avgs W ser (j + 1) n (acc + (it.val - av))

/-- Embeds the offset computation of `PeriodicAverageForecaster._forecast`
(src/timeseria/models.py, lines 1049–1073): run the `diffs` loop over the
last `window` elements, then compute `offset = diffs / j` — the source
divides by the *loop variable* `j`, whose value after
`for j in range(window)` is `window - 1`.  A window of 0 leaves `j` unbound
(`NameError`); a window of 1 divides by zero (`ZeroDivisionError`). -/
def paForecastOffset (md : PAFData) (R : ℚ) (dstf : ℚ → ℚ) (ser : List TSItem) :
    Except PyError ℚ :=
  if md.window = 0 then Except.error PyError.nameError
  else
    match pafDiffsLoop md.periodicity md.dst_affected dstf R md.averages
        md.window ser 0 md.window 0 with
    | Except.error e => Except.error e
    | Except.ok diffs =>
      if md.window - 1 = 0 then Except.error PyError.zeroDivisionError
      else Except.ok (diffs / ((md.window - 1 : ℕ) : ℚ))

/-- C3 (code bug): with periodicity 1, averages `{0: 0}`, window `W = 2` and a
series whose last two residuals are `1` and `2`, the source computes
`offset = (1 + 2) / 1 = 3` — it divides the summed residuals by the final
loop index `j = W - 1` instead of by `W`, so the offset is *not* the
arithmetic mean `(1 + 2) / 2` claimed (and documented in the source's own
comments); moreover `W = 1` raises `ZeroDivisionError`.  The window default
(`window = periodicity` when no argument is given) does hold. -/
theorem c3_forecast_offset_bug_eval :
    paForecastOffset ⟨1, false, 2, [(0, 0)]⟩ 1 dstfZero
        [⟨0, 1, none, none, none⟩, ⟨1, 2, none, none, none⟩] =
      Except.ok 3 ∧
      (3 : ℚ) ≠ (1 + 2) / 2 ∧
      pafFitWindow none 7 = 7 ∧
      paForecastOffset ⟨1, false, 1, [(0, 0)]⟩ 1 dstfZero
          [⟨0, 1, none, none, none⟩] =
        Except.error PyError.zeroDivisionError := by
  refine ⟨?_, by norm_num, by norm_num [pafFitWindow], ?_⟩
  · norm_num [paForecastOffset, pafDiffsLoop, pyGet, get_periodicity_index,
      ratTrunc, lookupAvg, alookup]
  · norm_num [paForecastOffset, pafDiffsLoop, pyGet, get_periodicity_index,
      ratTrunc, lookupAvg, alookup]

/-- The fitted data of a `PeriodicAverageReconstructor` and its
`offset_method` attribute (src/timeseria/models/reconstructors.py,
lines 367–470; identical logic in src/timeseria/models.py, lines 566–662). -/
inductive OffsetMethod where
  | average
  | extremes
  deriving DecidableEq, Repr

structure PARData where
  periodicity : ℕ
  dst_affected : Bool
  averages : List (ℤ × ℚ)
  offset_method : OffsetMethod
  deriving DecidableEq, Repr

/-- One iteration body of both offset loops of
`PeriodicAverageReconstructor._reconstruct`
(src/timeseria/models/reconstructors.py, lines 479–483 and 490–494):
`timeseries[j].data[key] - averages[phase(timeseries[j])]` with Python list
indexing. -/
def parResidual (md : PARData) (R : ℚ) (dstf : ℚ → ℚ) (ser : List TSItem)
    (j : ℤ) : Except PyError ℚ :=
  match pyGet ser j with
  | Except.error e => Except.error e
  | Except.ok it =>
    match get_periodicity_index it.t R md.periodicity (dstf it.t)
        md.dst_affected with
    | Except.error e => Except.error e
    | Except.ok ph =>
      match lookupAvg md.averages ph with
      | Except.error e => Except.error e
      | Except.ok av => Except.ok (it.val - av)

/-- The residual sum of the `average` offset method, over
`range(from_index, to_index)`; `n` is the remaining count. -/
def parAvgDiffsLoop (md : PARData) (R : ℚ) (dstf : ℚ → ℚ) (ser : List TSItem) :
    ℕ → ℕ → ℚ → Except PyError ℚ
  | _, 0, acc => Except.ok acc
  | j, n + 1, acc =>
    match parResidual md R dstf ser j with
    | Except.error e => Except.error e
    | Except.ok r => parAvgDiffsLoop md R dstf ser (j + 1) n (acc + r)

/-- Embeds the offset computation of
`PeriodicAverageReconstructor._reconstruct`
(src/timeseria/models/reconstructors.py, lines 476–499) for the gap
`[fromIndex, toIndex)`:

* `average`: mean residual over the gap's own elements;
* `extremes`: `for j in [from_index - 1, to_index + 1]` sum the residuals and
  halve, with the whole loop wrapped in `try: ... except IndexError:
  offset = 0` — a `KeyError` from the averages dict is *not* caught. -/
def parOffset (md : PARData) (R : ℚ) (dstf : ℚ → ℚ) (ser : List TSItem)
    (fromIndex toIndex : ℕ) : Except PyError ℚ :=
  match md.offset_method with
  | OffsetMethod.average =>
    match parAvgDiffsLoop md R dstf ser fromIndex (toIndex - fromIndex) 0 with
    | Except.error e => Except.error e
    | Except.ok diffs =>
      if toIndex - fromIndex = 0 then Except.error PyError.zeroDivisionError
      else Except.ok (diffs / ((toIndex - fromIndex : ℕ) : ℚ))
  | OffsetMethod.extremes =>
    match parResidual md R dstf ser ((fromIndex : ℤ) - 1) with
    | Except.error PyError.indexError => Except.ok 0
    | Except.error e => Except.error e
    | Except.ok r1 =>
      match parResidual md R dstf ser ((toIndex : ℤ) + 1) with
      | Except.error PyError.indexError => Except.ok 0
      | Except.error e => Except.error e
      | Except.ok r2 => Except.ok ((r1 + r2) / 2)

/-- Modelled from the spec (claim C4), for comparison with the source: the
`extremes` offset as the spec words it — the average of the two residuals at
positions `i_lo - 1` and `i_hi`, falling back to 0 when those positions lie
outside the series boundaries; a phase absent from the averages map counts
as 0 (spec §4.E fit). -/
def parOffsetExtremesSpec (md : PARData) (R : ℚ) (dstf : ℚ → ℚ)
    (ser : List TSItem) (fromIndex toIndex : ℕ) : Except PyError ℚ :=
  if fromIndex = 0 ∨ ser.length ≤ toIndex then Except.ok 0
  else
    match ser[fromIndex - 1]?, ser[toIndex]? with
    | some a, some b =>
      match get_periodicity_index a.t R md.periodicity (dstf a.t)
            md.dst_affected,
          get_periodicity_index b.t R md.periodicity (dstf b.t)
            md.dst_affected with
      | Except.ok pha, Except.ok phb =>
        Except.ok (((a.val - ((alookup md.averages pha).getD 0)) +
          (b.val - ((alookup md.averages phb).getD 0))) / 2)
      | _, _ => Except.error PyError.exception
    | _, _ => Except.error PyError.indexError

/-- The write loop of `PeriodicAverageReconstructor._reconstruct`
(src/timeseria/models/reconstructors.py, lines 501–506): for each `j` in the
gap set `data[key] = averages[phase] + offset` and stamp the
`data_reconstructed` index to 1. -/
def parWriteLoop (md : PARData) (R : ℚ) (dstf : ℚ → ℚ) (offset : ℚ) :
    ℕ → ℕ → List TSItem → Except PyError (List TSItem)
  | _, 0, cur => Except.ok cur
  | j, n + 1, cur =>
    match cur[j]? with
    | none => Except.error PyError.indexError
    | some it =>
      match get_periodicity_index it.t R md.periodicity (dstf it.t)
          md.dst_affected with
      | Except.error e => Except.error e
      | Except.ok ph =>
        match lookupAvg md.averages ph with
        | Except.error e => Except.error e
        | Except.ok av =>
          parWriteLoop md R dstf offset (j + 1) n
            (cur.set j { it with val := av + offset, dataReconstructed := some 1 })

/-- Embeds `PeriodicAverageReconstructor._reconstruct` in full
(src/timeseria/models/reconstructors.py, lines 472–506): compute the offset,
then rewrite the gap `[fromIndex, toIndex)` in place. -/
def paReconstructGap (md : PARData) (R : ℚ) (dstf : ℚ → ℚ) (ser : List TSItem)
    (fromIndex toIndex : ℕ) : Except PyError (List TSItem) :=
  match parOffset md R dstf ser fromIndex toIndex with
  | Except.error e => Except.error e
  | Except.ok offset =>
    parWriteLoop md R dstf offset fromIndex (toIndex - fromIndex) ser

/-- C4 counterexample: periodicity 1, averages `{0: 0}`, series values
`[0, 99, 10, 20]` at `t = 0, 1, 2, 3`, gap `[1, 2)`.  The source's `extremes`
offset reads positions `0` and `3` (`to_index + 1`), giving
`(0 + 20) / 2 = 10`; the claimed positions `0` and `2` (`i_hi`) would give
`(0 + 10) / 2 = 5`. -/
theorem c4_extremes_offset_counterexample :
    parOffset ⟨1, false, [(0, 0)], OffsetMethod.extremes⟩ 1 dstfZero
        [⟨0, 0, none, none, none⟩, ⟨1, 99, none, none, none⟩,
          ⟨2, 10, none, none, none⟩, ⟨3, 20, none, none, none⟩] 1 2 =
      Except.ok 10 ∧
      parOffsetExtremesSpec ⟨1, false, [(0, 0)], OffsetMethod.extremes⟩ 1
          dstfZero
          [⟨0, 0, none, none, none⟩, ⟨1, 99, none, none, none⟩,
            ⟨2, 10, none, none, none⟩, ⟨3, 20, none, none, none⟩] 1 2 =
        Except.ok 5 ∧
      (10 : ℚ) ≠ 5 := by
  refine ⟨?_, ?_, by norm_num⟩
  · norm_num [parOffset, parResidual, pyGet, get_periodicity_index, ratTrunc,
      lookupAvg, alookup, int_toNat_lit]
  · norm_num [parOffsetExtremesSpec, get_periodicity_index, ratTrunc, alookup,
      int_toNat_lit]

/-- C4 (amended): with the `extremes` method the offset is the average of the
two residuals at *Python* indices `i_lo - 1` and `i_hi + 1` (not `i_hi`); for
`i_lo = 0` the index `-1` wraps around to the last element, and the offset
falls back to 0 exactly when one of the two indexing operations raises
`IndexError` (in particular when `i_hi + 1 ≥ len(series)`). -/
theorem c4_extremes_offset_positions (md : PARData) (R : ℚ) (dstf : ℚ → ℚ)
    (ser : List TSItem) (fromIndex toIndex : ℕ)
    (hm : md.offset_method = OffsetMethod.extremes) :
    (∀ r1 r2 : ℚ,
        parResidual md R dstf ser ((fromIndex : ℤ) - 1) = Except.ok r1 →
        parResidual md R dstf ser ((toIndex : ℤ) + 1) = Except.ok r2 →
        parOffset md R dstf ser fromIndex toIndex =
          Except.ok ((r1 + r2) / 2)) ∧
      (parResidual md R dstf ser ((fromIndex : ℤ) - 1) =
          Except.error PyError.indexError →
        parOffset md R dstf ser fromIndex toIndex = Except.ok 0) ∧
      (∀ r1 : ℚ,
        parResidual md R dstf ser ((fromIndex : ℤ) - 1) = Except.ok r1 →
        parResidual md R dstf ser ((toIndex : ℤ) + 1) =
          Except.error PyError.indexError →
        parOffset md R dstf ser fromIndex toIndex = Except.ok 0) := by
  refine ⟨?_, ?_, ?_⟩
  · intro r1 r2 h1 h2
    rw [parOffset, hm, h1, h2]
  · intro h1
    rw [parOffset, hm, h1]
  · intro r1 h1 h2
    rw [parOffset, hm, h1, h2]

/-- C4 witness: the amended theorem applied to the counterexample inputs,
whose residuals at indices `0` and `3` are `0` and `20`, yielding offset
`10`. -/
theorem c4_extremes_offset_positions_witness :
    (⟨1, false, [(0, 0)], OffsetMethod.extremes⟩ : PARData).offset_method =
        OffsetMethod.extremes ∧
      parResidual ⟨1, false, [(0, 0)], OffsetMethod.extremes⟩ 1 dstfZero
          [⟨0, 0, none, none, none⟩, ⟨1, 99, none, none, none⟩,
            ⟨2, 10, none, none, none⟩, ⟨3, 20, none, none, none⟩]
          ((1 : ℤ) - 1) = Except.ok 0 ∧
      parResidual ⟨1, false, [(0, 0)], OffsetMethod.extremes⟩ 1 dstfZero
          [⟨0, 0, none, none, none⟩, ⟨1, 99, none, none, none⟩,
            ⟨2, 10, none, none, none⟩, ⟨3, 20, none, none, none⟩]
          ((2 : ℤ) + 1) = Except.ok 20 ∧
      parOffset ⟨1, false, [(0, 0)], OffsetMethod.extremes⟩ 1 dstfZero
          [⟨0, 0, none, none, none⟩, ⟨1, 99, none, none, none⟩,
            ⟨2, 10, none, none, none⟩, ⟨3, 20, none, none, none⟩] 1 2 =
        Except.ok ((0 + 20) / 2) := by
  have h1 : parResidual ⟨1, false, [(0, 0)], OffsetMethod.extremes⟩ 1 dstfZero
      [⟨0, 0, none, none, none⟩, ⟨1, 99, none, none, none⟩,
        ⟨2, 10, none, none, none⟩, ⟨3, 20, none, none, none⟩]
      ((1 : ℤ) - 1) = Except.ok 0 := by
    norm_num [parResidual, pyGet, get_periodicity_index, ratTrunc, lookupAvg,
      alookup, int_toNat_lit]
  have h2 : parResidual ⟨1, false, [(0, 0)], OffsetMethod.extremes⟩ 1 dstfZero
      [⟨0, 0, none, none, none⟩, ⟨1, 99, none, none, none⟩,
        ⟨2, 10, none, none, none⟩, ⟨3, 20, none, none, none⟩]
      ((2 : ℤ) + 1) = Except.ok 20 := by
    norm_num [parResidual, pyGet, get_periodicity_index, ratTrunc, lookupAvg,
      alookup, int_toNat_lit]
  exact ⟨rfl, h1, h2,
    (c4_extremes_offset_positions _ 1 dstfZero _ 1 2 rfl).1 0 20 h1 h2⟩

/-!
The periodic-average reconstructor fit
(src/timeseria/models/reconstructors.py, lines 392–470).
-/

/-- The fit condition of `PeriodicAverageReconstructor._fit` (line 455):
`item.data_loss is None or item.data_loss < data_loss_threshold` (the source
notes: we do fit on data losses = None). -/
def fitContributes (theta : ℚ) (it : TSItem) : Bool :=
  match it.dataLoss with
  | none => true
  | some l => decide (l < theta)

/-- The `sums`/`totals` dict update of the fit loop (lines 457–462): a new
phase is appended with sum `v` and count 1, an existing one is accumulated
in place. -/
def fitAccUpd (st : List (ℤ × ℚ × ℕ)) (ph : ℤ) (v : ℚ) : List (ℤ × ℚ × ℕ) :=
  match st with
  | [] => [(ph, v, 1)]
  | (p, s, c) :: rest =>
    if p = ph then (p, s + v, c + 1) :: rest
    else (p, s, c) :: fitAccUpd rest ph v

/-- The fit loop of `PeriodicAverageReconstructor._fit` (lines 445–463) in
the default whole-series case (`start = end = None`): accumulate
`sums[phase]` and `totals[phase]` over contributing elements. -/
def paFitLoop (P : ℕ) (dst : Bool) (dstf : ℚ → ℚ) (R theta : ℚ) :
    List TSItem → List (ℤ × ℚ × ℕ) → Except PyError (List (ℤ × ℚ × ℕ))
  | [], st => Except.ok st
  | it :: rest, st =>
    if fitContributes theta it then
      match get_periodicity_index it.t R P (dstf it.t) dst with
      | Except.error e => Except.error e
      | Except.ok ph => paFitLoop P dst dstf R theta rest (fitAccUpd st ph it.val)
    else paFitLoop P dst dstf R theta rest st

/-- Embeds the `averages` computation of
`PeriodicAverageReconstructor._fit` (lines 465–468):
`averages[phase] = sums[phase] / totals[phase]`. -/
def paFitAverages (P : ℕ) (dst : Bool) (dstf : ℚ → ℚ) (R theta : ℚ)
    (ser : List TSItem) : Except PyError (List (ℤ × ℚ)) :=
  match paFitLoop P dst dstf R theta ser [] with
  | Except.error e => Except.error e
  | Except.ok st => Except.ok (st.map (fun e => (e.1, e.2.1 / (e.2.2 : ℚ))))

/-- The contributing elements of phase `ph` as claim C5 words them: elements
whose (present) `data_loss` is below the threshold, at the given phase. -/
def specPhaseList (theta : ℚ) (P : ℕ) (R : ℚ) (ph : ℤ) (ser : List TSItem) :
    List TSItem :=
  ser.filter (fun it =>
    (match it.dataLoss with
      | some l => decide (l < theta)
      | none => false) && decide (phaseNoDst it.t R P = ph))

/-- The contributing elements of phase `ph` under the source's fit condition
(which also admits `data_loss = None`). -/
def fitPhaseList (theta : ℚ) (P : ℕ) (R : ℚ) (ph : ℤ) (ser : List TSItem) :
    List TSItem :=
  ser.filter (fun it => fitContributes theta it && decide (phaseNoDst it.t R P = ph))

/-- Merging a phase's prior accumulator entry with the contribution of a
suffix of the series. -/
def combineAcc (o : Option (ℚ × ℕ)) (s : ℚ) (c : ℕ) : Option (ℚ × ℕ) :=
  match o with
  | some sc => some (sc.1 + s, sc.2 + c)
  | none => if c = 0 then none else some (s, c)

theorem alookup_fitAccUpd_of_none (st : List (ℤ × ℚ × ℕ)) (ph : ℤ) (v : ℚ)
    (h : alookup st ph = none) :
    alookup (fitAccUpd st ph v) ph = some (v, 1) := by
  induction st with
  | nil => simp [fitAccUpd, alookup]
  | cons e rest ih =>
    obtain ⟨p, s, c⟩ := e
    by_cases hp : p = ph
    · rw [alookup, if_pos hp] at h
      cases h
    · rw [alookup, if_neg hp] at h
      rw [fitAccUpd, if_neg hp, alookup, if_neg hp]
      exact ih h

theorem alookup_fitAccUpd_of_some (st : List (ℤ × ℚ × ℕ)) (ph : ℤ) (v : ℚ)
    (sc : ℚ × ℕ) (h : alookup st ph = some sc) :
    alookup (fitAccUpd st ph v) ph = some (sc.1 + v, sc.2 + 1) := by
  induction st with
  | nil => cases h
  | cons e rest ih =>
    obtain ⟨p, s, c⟩ := e
    by_cases hp : p = ph
    · rw [alookup, if_pos hp] at h
      cases h
      rw [fitAccUpd, if_pos hp, alookup, if_pos hp]
    · rw [alookup, if_neg hp] at h
      rw [fitAccUpd, if_neg hp, alookup, if_neg hp]
      exact ih h

theorem alookup_fitAccUpd_ne (st : List (ℤ × ℚ × ℕ)) (ph q : ℤ) (v : ℚ)
    (h : q ≠ ph) :
    alookup (fitAccUpd st ph v) q = alookup st q := by
  induction st with
  | nil =>
    show alookup [(ph, v, 1)] q = (none : Option (ℚ × ℕ))
    rw [alookup, if_neg (fun he : ph = q => h he.symm)]
    rfl
  | cons e rest ih =>
    obtain ⟨p, s, c⟩ := e
    by_cases hp : p = ph
    · subst hp
      rw [fitAccUpd, if_pos rfl, alookup, if_neg (fun he => h he.symm), alookup,
        if_neg (fun he => h he.symm)]
    · by_cases hq : p = q
      · rw [fitAccUpd, if_neg hp, alookup, if_pos hq, alookup, if_pos hq]
      · rw [fitAccUpd, if_neg hp, alookup, if_neg hq, alookup, if_neg hq]
        exact ih

theorem combineAcc_zero (o : Option (ℚ × ℕ)) : combineAcc o 0 0 = o := by
  cases o with
  | none => simp [combineAcc]
  | some sc => simp [combineAcc]

theorem paFitLoop_lookup (P : ℕ) (dstf : ℚ → ℚ) (R theta : ℚ) :
    ∀ (ser : List TSItem) (st out : List (ℤ × ℚ × ℕ)),
      paFitLoop P false dstf R theta ser st = Except.ok out → ∀ ph : ℤ,
        alookup out ph =
          combineAcc (alookup st ph)
            (((fitPhaseList theta P R ph ser).map TSItem.val).sum)
            ((fitPhaseList theta P R ph ser).length) := by
  intro ser
  induction ser with
  | nil =>
    intro st out h ph
    cases h
    simp [fitPhaseList, combineAcc_zero]
  | cons it rest ih =>
    intro st out h ph
    rw [paFitLoop] at h
    by_cases hc : fitContributes theta it
    · rw [if_pos hc, get_periodicity_index_false] at h
      change paFitLoop P false dstf R theta rest
        (fitAccUpd st (phaseNoDst it.t R P) it.val) = Except.ok out at h
      have hrec := ih _ _ h ph
      by_cases hph : phaseNoDst it.t R P = ph
      · subst hph
        have hfilter :
            fitPhaseList theta P R (phaseNoDst it.t R P) (it :: rest) =
              it :: fitPhaseList theta P R (phaseNoDst it.t R P) rest := by
          simp [fitPhaseList, List.filter_cons, hc]
        rw [hfilter]
        simp only [List.map_cons, List.sum_cons, List.length_cons]
        cases hst : alookup st (phaseNoDst it.t R P) with
        | none =>
          rw [hrec, alookup_fitAccUpd_of_none st _ it.val hst]
          simp only [combineAcc]
          rw [if_neg (by omega)]
          simp only [Option.some.injEq, Prod.mk.injEq]
          exact ⟨trivial, by omega⟩
        | some sc =>
          rw [hrec, alookup_fitAccUpd_of_some st _ it.val sc hst]
          simp only [combineAcc]
          simp only [Option.some.injEq, Prod.mk.injEq]
          exact ⟨by ring, by omega⟩
      · have hfilter :
            fitPhaseList theta P R ph (it :: rest) =
              fitPhaseList theta P R ph rest := by
          simp [fitPhaseList, List.filter_cons, hph]
        rw [hfilter, hrec, alookup_fitAccUpd_ne st _ ph it.val
          (fun he => hph he.symm)]
    · rw [if_neg hc] at h
      have hfilter :
          fitPhaseList theta P R ph (it :: rest) =
            fitPhaseList theta P R ph rest := by
        simp [fitPhaseList, List.filter_cons, hc]
      rw [hfilter]
      exact ih _ _ h ph

theorem paFitLoop_ok (P : ℕ) (dstf : ℚ → ℚ) (R theta : ℚ) :
    ∀ (ser : List TSItem) (st : List (ℤ × ℚ × ℕ)),
      ∃ out, paFitLoop P false dstf R theta ser st = Except.ok out := by
  intro ser
  induction ser with
  | nil => intro st; exact ⟨st, rfl⟩
  | cons it rest ih =>
    intro st
    rw [paFitLoop]
    by_cases hc : fitContributes theta it
    · rw [if_pos hc, get_periodicity_index_false]
      exact ih (fitAccUpd st (phaseNoDst it.t R P) it.val)
    · rw [if_neg hc]
      exact ih st

theorem alookup_mapAvg (st : List (ℤ × ℚ × ℕ)) (q : ℤ) :
    alookup (st.map (fun e => (e.1, e.2.1 / (e.2.2 : ℚ)))) q =
      (alookup st q).map (fun sc => sc.1 / (sc.2 : ℚ)) := by
  induction st with
  | nil => simp [alookup]
  | cons e rest ih =>
    by_cases h : e.1 = q
    · simp [alookup, h]
    · simp [alookup, h, ih]

/-- C5 counterexample: fitting on two elements, `(t=0, v=5, data_loss=0)` and
`(t=1, v=7, data_loss=1)`, with `P = 2`, `R = 1` and the default threshold
`0.5`, leaves phase 1 absent from the averages map
(`averages = {0: 5}`); reconstructing the gap `[1, 2)` then *consults* the
absent phase 1 and raises `KeyError` — it is not treated as 0 as
claimed. -/
theorem c5_missing_phase_counterexample :
    paFitAverages 2 false dstfZero 1 (1 / 2)
        [⟨0, 5, some 0, none, none⟩, ⟨1, 7, some 1, none, none⟩] =
      Except.ok [(0, 5)] ∧
      paReconstructGap ⟨2, false, [(0, 5)], OffsetMethod.average⟩ 1 dstfZero
          [⟨0, 5, some 0, none, none⟩, ⟨1, 7, some 1, none, none⟩] 1 2 =
        Except.error PyError.keyError := by
  constructor
  · norm_num [paFitAverages, paFitLoop, fitContributes, fitAccUpd,
      get_periodicity_index, ratTrunc, alookup]
  · norm_num [paReconstructGap, parOffset, parAvgDiffsLoop, parResidual,
      pyGet, get_periodicity_index, ratTrunc, lookupAvg, alookup, int_toNat_lit]

/-- C5 (amended): on a series whose elements all carry a (non-`None`)
`data_loss`, the fit produces, for every phase, the mean of the values of the
elements whose `data_loss` is below the threshold at that phase; a phase with
no contributing element is absent from the averages map, and *consulting* an
absent phase (dict subscript, as reconstruction does) raises `KeyError`
rather than being treated as 0.  (Elements with `data_loss = None` would also
be included by the source — claim C10.) -/
theorem c5_fit_averages (P : ℕ) (R theta : ℚ) (dstf : ℚ → ℚ)
    (ser : List TSItem) (hnn : ∀ it ∈ ser, it.dataLoss ≠ none) :
    ∃ A, paFitAverages P false dstf R theta ser = Except.ok A ∧
      (∀ ph : ℤ,
        alookup A ph =
          (if (specPhaseList theta P R ph ser).length = 0 then none
          else some (((specPhaseList theta P R ph ser).map TSItem.val).sum /
            ((specPhaseList theta P R ph ser).length : ℚ)))) ∧
      (∀ ph : ℤ, alookup A ph = none →
        lookupAvg A ph = Except.error PyError.keyError) := by
  obtain ⟨out, hout⟩ := paFitLoop_ok P dstf R theta ser []
  refine ⟨out.map (fun e => (e.1, e.2.1 / (e.2.2 : ℚ))), ?_, ?_, ?_⟩
  · rw [paFitAverages, hout]
  · intro ph
    have hspec : fitPhaseList theta P R ph ser = specPhaseList theta P R ph ser := by
      rw [fitPhaseList, specPhaseList]
      apply List.filter_congr
      intro it hit
      cases hdl : it.dataLoss with
      | none => exact absurd hdl (hnn it hit)
      | some l => simp [fitContributes, hdl]
    have hlk := paFitLoop_lookup P dstf R theta ser [] out hout ph
    rw [alookup_mapAvg, hlk, hspec]
    show Option.map _ (combineAcc none _ _) = _
    rw [combineAcc]
    by_cases hz : (specPhaseList theta P R ph ser).length = 0
    · rw [if_pos hz, if_pos hz]
      rfl
    · rw [if_neg hz, if_neg hz]
      rfl
  · intro ph h
    rw [lookupAvg, h]

/-- C5 witness: the amended theorem applied to the counterexample fit input,
whose elements all carry a data_loss. -/
theorem c5_fit_averages_witness :
    (∀ it ∈ [(⟨0, 5, some 0, none, none⟩ : TSItem),
        ⟨1, 7, some 1, none, none⟩], it.dataLoss ≠ none) ∧
      (∃ A, paFitAverages 2 false dstfZero 1 (1 / 2)
          [⟨0, 5, some 0, none, none⟩, ⟨1, 7, some 1, none, none⟩] =
            Except.ok A ∧
        (∀ ph : ℤ,
          alookup A ph =
            (if (specPhaseList (1 / 2) 2 1 ph
                [⟨0, 5, some 0, none, none⟩, ⟨1, 7, some 1, none, none⟩]).length
                = 0 then none
            else some (((specPhaseList (1 / 2) 2 1 ph
                [⟨0, 5, some 0, none, none⟩,
                  ⟨1, 7, some 1, none, none⟩]).map TSItem.val).sum /
              ((specPhaseList (1 / 2) 2 1 ph
                [⟨0, 5, some 0, none, none⟩,
                  ⟨1, 7, some 1, none, none⟩]).length : ℚ)))) ∧
        (∀ ph : ℤ, alookup A ph = none →
          lookupAvg A ph = Except.error PyError.keyError)) :=
  ⟨by intro it hit
      fin_cases hit <;> simp,
    c5_fit_averages 2 1 (1 / 2) dstfZero
      [⟨0, 5, some 0, none, none⟩, ⟨1, 7, some 1, none, none⟩]
      (by intro it hit
          fin_cases hit <;> simp)⟩

/-!
The generic reconstructor apply loop
(src/timeseria/models/reconstructors.py, lines 48–108) and the anomaly
detector apply (src/timeseria/models/anomaly_detectors.py, lines 156–206).
-/

/-- Modelled from the spec: `duplicate()` of the newer datastructures module
(not under src/) is, per spec §4.B and property P2, a deep copy preserving
indexes — on values the identity, with all subsequent in-place mutation
happening on the copy. -/
def duplicateSeries (ser : List TSItem) : List TSItem := ser

/-- In-place mutation of the element object at index `i` of a Python list
(out-of-range is a no-op here; the source only mutates existing items). -/
def setAt (l : List TSItem) (i : ℕ) (f : TSItem → TSItem) : List TSItem :=
  match l[i]? with
  | some x => l.set i (f x)
  | none => l

theorem setAt_getElem?_ne (l : List TSItem) (i k : ℕ) (f : TSItem → TSItem)
    (h : k ≠ i) : (setAt l i f)[k]? = l[k]? := by
  rw [setAt]
  cases hx : l[i]? with
  | none => rfl
  | some x => exact List.getElem?_set_ne (Ne.symm h)

theorem setAt_getElem?_self (l : List TSItem) (i : ℕ) (f : TSItem → TSItem)
    (x : TSItem) (hx : l[i]? = some x) : (setAt l i f)[i]? = some (f x) := by
  rw [setAt, hx]
  exact List.getElem?_set_self (List.getElem?_eq_some.mp hx).1

/-- The gap-closing call of the apply loop: reconstruct an open gap
`[g, i)`, or leave the series alone when no gap is open. -/
def reconApplyClose (recon : List TSItem → ℕ → ℕ → Except PyError (List TSItem))
    (i : ℕ) (cur : List TSItem) (gap : Option ℕ) :
    Except PyError (List TSItem) :=
  match gap with
  | some g => recon cur g i
  | none => Except.ok cur

/-- One iteration of the loop at index `i`: returns the mutated series and the
new `gap_started` state.  An element whose `data_loss` is not `None` and at
least the threshold opens (or extends) a gap; any other element first closes
an open gap via `recon`, then gets `data_reconstructed = 0`; with
`remove_data_loss` its `data_loss` index is popped afterwards. -/
def reconApplyStep (recon : List TSItem → ℕ → ℕ → Except PyError (List TSItem))
    (theta : ℚ) (rdl : Bool) (i : ℕ) (cur : List TSItem) (gap : Option ℕ) :
    Except PyError (List TSItem × Option ℕ) :=
  match cur[i]? with
  | none => Except.error PyError.indexError
  | some item =>
    match item.dataLoss with
    | some l =>
      if theta ≤ l then
        Except.ok
          (if rdl then setAt cur i (fun it => { it with dataLoss := none }) else cur,
            match gap with
            | some g => some g
            | none => some i)
      else
        match reconApplyClose recon i cur gap with
        | Except.error e => Except.error e
        | Except.ok cur1 =>
          Except.ok
            (if rdl then
              setAt (setAt cur1 i (fun it => { it with dataReconstructed := some 0 }))
                i (fun it => { it with dataLoss := none })
            else setAt cur1 i (fun it => { it with dataReconstructed := some 0 }),
              none)
    | none =>
      match reconApplyClose recon i cur gap with
      | Except.error e => Except.error e
      | Except.ok cur1 =>
        Except.ok
          (if rdl then
            setAt (setAt cur1 i (fun it => { it with dataReconstructed := some 0 }))
              i (fun it => { it with dataLoss := none })
          else setAt cur1 i (fun it => { it with dataReconstructed := some 0 }),
            none)

/-- Embeds the per-label loop of `Reconstructor._apply`
(src/timeseria/models/reconstructors.py, lines 66–103) for a univariate
series in the default `from_t = to_t = None` case: run `reconApplyStep` for
each index and finally reconstruct a still-open gap up to the end of the
series (`to_index = i + 1` with `i` the last index, i.e. the length). -/
def reconApplyLoop
    (recon : List TSItem → ℕ → ℕ → Except PyError (List TSItem))
    (theta : ℚ) (rdl : Bool) :
    ℕ → ℕ → List TSItem → Option ℕ → Except PyError (List TSItem)
  | i, 0, cur, gap => reconApplyClose recon i cur gap
  | i, n + 1, cur, gap =>
    match reconApplyStep recon theta rdl i cur gap with
    | Except.error e => Except.error e
    | Except.ok (cur2, gap2) => reconApplyLoop recon theta rdl (i + 1) n cur2 gap2

/-- The observable outcome of a model `apply` call: the state of the caller's
input series object after the call, and the returned series (`none` models
Python's `return None` for `inplace=True`). -/
structure ApplyResult where
  inputAfter : List TSItem
  returned : Option (List TSItem)
  deriving Repr

/-- Embeds `Reconstructor._apply` (src/timeseria/models/reconstructors.py,
lines 48–108) for a univariate series: with `inplace` the caller's series is
mutated and `None` is returned; otherwise all work happens on
`series.duplicate()` and the duplicate is returned, leaving the input as it
was. -/
def reconstructorApply
    (recon : List TSItem → ℕ → ℕ → Except PyError (List TSItem))
    (theta : ℚ) (rdl : Bool) (inplace : Bool) (ser : List TSItem) :
    Except PyError ApplyResult :=
  if inplace then
    match reconApplyLoop recon theta rdl 0 ser.length ser none with
    | Except.error e => Except.error e
    | Except.ok cur => Except.ok ⟨cur, none⟩
  else
    match reconApplyLoop recon theta rdl 0 (duplicateSeries ser).length
        (duplicateSeries ser) none with
    | Except.error e => Except.error e
    | Except.ok cur => Except.ok ⟨ser, some cur⟩

/-- The fitted data of a `ForecasterAnomalyDetector`
(src/timeseria/models/anomaly_detectors.py, lines 122–153): the residual
standard deviation `stdev` (obtained in the source from
`scipy.stats.norm.fit`, an external collaborator, hence a parameter of the
embedding) and the `stdevs` multiplier, whose source default is 3. -/
structure ADData where
  stdev : ℚ
  stdevs : ℚ
  deriving DecidableEq, Repr

def adFitData (stdev stdevs : ℚ) : ADData := ⟨stdev, stdevs⟩

/-- The source default of the `stdevs` fit argument (line 122). -/
def adFitDefaultStdevs : ℚ := 3

/-- The threshold selection of `ForecasterAnomalyDetector._apply`
(lines 181–184): `if stdevs:` — a truthy (non-`None`, nonzero) `stdevs`
argument overrides the fitted multiplier. -/
def adThreshold (dd : ADData) (stdevsArg : Option ℚ) : ℚ :=
  match stdevsArg with
  | some s => if s = 0 then dd.stdev * dd.stdevs else dd.stdev * s
  | none => dd.stdev * dd.stdevs

/-- Modelled from the spec where noted: the annotation loop of
`ForecasterAnomalyDetector._apply` (lines 166–204, `details=False` path).
Elements up to the forecaster window are skipped; each later element is
deep-copied and annotated with 1 when `AE > threshold`, else 0.  `predict i`
stands for the wrapped forecaster's one-step-ahead prediction for index `i`
(`models/forecasters.py` is not under src/; per spec §4.G a pure function of
the preceding window), and the source's `item.anomaly = 1` attribute write is
modelled as setting the element's `anomaly` data index — the location the
spec (§3, §4.G) gives for the annotation on the element class that is not
under src/. -/
def adAnnotateLoop (predict : ℕ → ℚ) (w : ℕ) (T : ℚ) :
    ℕ → List TSItem → List TSItem
  | _, [] => []
  | i, it :: rest =>
    if i ≤ w then adAnnotateLoop predict w T (i + 1) rest
    else
      { it with anomaly := some (if T < |it.val - predict i| then 1 else 0) } ::
        adAnnotateLoop predict w T (i + 1) rest

/-- Embeds `ForecasterAnomalyDetector._apply`
(src/timeseria/models/anomaly_detectors.py, lines 156–206) for a univariate
series: `inplace` raises, otherwise a fresh annotated series is returned and
the input is left untouched. -/
def anomalyDetectorApply (predict : ℕ → ℚ) (w : ℕ) (dd : ADData)
    (stdevsArg : Option ℚ) (inplace : Bool) (ser : List TSItem) :
    Except PyError ApplyResult :=
  if inplace then Except.error PyError.exception
  else
    Except.ok ⟨ser, some (adAnnotateLoop predict w (adThreshold dd stdevsArg) 0 ser)⟩

/-- C7 (confirmed): a reconstructor `apply` with `inplace=false` (the
default) leaves the caller's series exactly as it was and returns a distinct
freshly-built series (the duplicate), and likewise the anomaly detector
`apply`, which always builds a new series.  The deep-copy semantics of
`duplicate()` is modelled from the spec (§4.B, P2), its module not being
under src/. -/
theorem c7_apply_preserves_input
    (recon : List TSItem → ℕ → ℕ → Except PyError (List TSItem))
    (theta : ℚ) (rdl : Bool) (ser : List TSItem) (predict : ℕ → ℚ) (w : ℕ)
    (dd : ADData) (sarg : Option ℚ) :
    (∀ res, reconstructorApply recon theta rdl false ser = Except.ok res →
        res.inputAfter = ser ∧ res.returned.isSome = true) ∧
      (∀ res, anomalyDetectorApply predict w dd sarg false ser = Except.ok res →
        res.inputAfter = ser ∧ res.returned.isSome = true) := by
  constructor
  · intro res h
    rw [reconstructorApply, if_neg (by simp)] at h
    cases hl : reconApplyLoop recon theta rdl 0 (duplicateSeries ser).length
        (duplicateSeries ser) none with
    | error e => rw [hl] at h; cases h
    | ok cur =>
      rw [hl] at h
      cases h
      exact ⟨rfl, rfl⟩
  · intro res h
    rw [anomalyDetectorApply, if_neg (by simp)] at h
    cases h
    exact ⟨rfl, rfl⟩

/-- C7 witness: the theorem applied to a one-element series under the
periodic-average reconstructor and an anomaly detector. -/
theorem c7_apply_preserves_input_witness :
    (∀ res,
        reconstructorApply
          (paReconstructGap ⟨1, false, [(0, 5)], OffsetMethod.average⟩ 1 dstfZero)
          1 false false [⟨0, 5, some 0, none, none⟩] = Except.ok res →
        res.inputAfter = [⟨0, 5, some 0, none, none⟩] ∧
          res.returned.isSome = true) ∧
      (∀ res,
        anomalyDetectorApply (fun _ => 5) 0 ⟨1, 3⟩ none false
            [⟨0, 5, some 0, none, none⟩] = Except.ok res →
        res.inputAfter = [⟨0, 5, some 0, none, none⟩] ∧
          res.returned.isSome = true) :=
  c7_apply_preserves_input
    (paReconstructGap ⟨1, false, [(0, 5)], OffsetMethod.average⟩ 1 dstfZero)
    1 false [⟨0, 5, some 0, none, none⟩] (fun _ => 5) 0 ⟨1, 3⟩ none

/-- The annotated result series exactly as claim C8 words it: every element
of the result (the elements after the forecaster window) carries the anomaly
data index, 1 precisely when the one-step absolute error exceeds
`sigma * k`, else 0. -/
def adSpecList (predict : ℕ → ℚ) (w : ℕ) (sigma k : ℚ) (ser : List TSItem) :
    List TSItem :=
  (ser.enum.filter (fun p => w < p.1)).map
    (fun p =>
      { p.2 with anomaly := some (if sigma * k < |p.2.val - predict p.1| then 1 else 0) })

theorem adAnnotateLoop_enumFrom (predict : ℕ → ℚ) (w : ℕ) (T : ℚ) :
    ∀ (ser : List TSItem) (i : ℕ),
      adAnnotateLoop predict w T i ser =
        ((ser.enumFrom i).filter (fun p => w < p.1)).map
          (fun p =>
            { p.2 with anomaly := some (if T < |p.2.val - predict p.1| then 1 else 0) }) := by
  intro ser
  induction ser with
  | nil => intro i; rfl
  | cons it rest ih =>
    intro i
    rw [adAnnotateLoop]
    by_cases hi : i ≤ w
    · rw [if_pos hi]
      rw [List.enumFrom_cons, List.filter_cons]
      rw [show (decide (w < ((i, it) : ℕ × TSItem).1)) = false by
        simp [Nat.not_lt.mpr hi]]
      rw [if_neg (by simp)]
      exact ih (i + 1)
    · rw [if_neg hi]
      rw [List.enumFrom_cons, List.filter_cons]
      rw [show (decide (w < ((i, it) : ℕ × TSItem).1)) = true by
        simp [Nat.lt_of_not_le hi]]
      rw [if_pos rfl]
      rw [List.map_cons]
      exact congrArg _ (ih (i + 1))

/-- C8 (confirmed): applying a fitted anomaly detector (fitted σ, default
`stdevs = 3`, no override at apply time) returns the series in which every
element after the forecaster window carries the `anomaly` index, set to 1
exactly when its one-step absolute prediction error exceeds `σ · 3`, else 0.
The wrapped forecaster's prediction and the fitted σ come from modules /
collaborators not under src/ and are parameters (spec §4.G). -/
theorem c8_anomaly_threshold (predict : ℕ → ℚ) (w : ℕ) (sigma : ℚ)
    (ser : List TSItem) :
    anomalyDetectorApply predict w (adFitData sigma adFitDefaultStdevs) none
        false ser =
      Except.ok ⟨ser, some (adSpecList predict w sigma 3 ser)⟩ := by
  rw [anomalyDetectorApply, if_neg (by simp)]
  have hT : adThreshold (adFitData sigma adFitDefaultStdevs) none = sigma * 3 := rfl
  rw [hT, adSpecList, adAnnotateLoop_enumFrom]
  rfl

theorem parWriteLoop_frame (md : PARData) (R : ℚ) (dstf : ℚ → ℚ) (offset : ℚ) :
    ∀ (n j : ℕ) (cur out : List TSItem),
      parWriteLoop md R dstf offset j n cur = Except.ok out →
      ∀ m, m < j ∨ j + n ≤ m → out[m]? = cur[m]? := by
  intro n
  induction n with
  | zero =>
    intro j cur out h m _
    cases h
    rfl
  | succ n ih =>
    intro j cur out h m hm
    rw [parWriteLoop] at h
    split at h
    next => cases h
    next it hj =>
      split at h
      next => cases h
      next ph hph =>
        split at h
        next => cases h
        next av hav =>
          have h2 := ih (j + 1) _ out h m (by omega)
          rw [h2, List.getElem?_set_ne (by omega)]

theorem paReconstructGap_frame (md : PARData) (R : ℚ) (dstf : ℚ → ℚ) :
    ∀ (cur : List TSItem) (g j : ℕ) (out : List TSItem),
      paReconstructGap md R dstf cur g j = Except.ok out →
      ∀ m, m < g ∨ j ≤ m → out[m]? = cur[m]? := by
  intro cur g j out h m hm
  rw [paReconstructGap] at h
  split at h
  next => cases h
  next offset hoff =>
    by_cases hgj : g ≤ j
    · exact parWriteLoop_frame md R dstf offset (j - g) g cur out h m (by omega)
    · rw [show j - g = 0 by omega, parWriteLoop] at h
      cases h
      rfl


theorem reconApplyStep_spec
    (recon : List TSItem → ℕ → ℕ → Except PyError (List TSItem)) (theta : ℚ)
    (Hf : ∀ cur g j out, recon cur g j = Except.ok out →
      ∀ m, m < g ∨ j ≤ m → out[m]? = cur[m]?)
    (i : ℕ) (cur : List TSItem) (gap : Option ℕ) (cur2 : List TSItem)
    (gap2 : Option ℕ) (hgap : ∀ g, gap = some g → g ≤ i)
    (h : reconApplyStep recon theta false i cur gap = Except.ok (cur2, gap2)) :
    (∀ g2, gap2 = some g2 → g2 ≤ i + 1) ∧
      (∀ g2, gap2 = some g2 → gap = some g2 ∨ g2 = i) ∧
      (∀ k, i < k → cur2[k]? = cur[k]?) ∧
      (∀ k, k < i → (∀ g, gap = some g → k < g) → cur2[k]? = cur[k]?) ∧
      (∀ item, cur[i]? = some item → item.dataLoss = none →
        cur2[i]? = some { item with dataReconstructed := some 0 } ∧
          gap2 = none) := by
  rw [reconApplyStep.eq_def] at h
  split at h
  next => cases h
  next item heq =>
    split at h
    next l hdli =>
      split at h
      next hl =>
        cases h
        refine ⟨?_, ?_, ?_, ?_, ?_⟩
        · intro g2 hg2
          cases gap with
          | none => cases hg2; omega
          | some g0 => cases hg2; exact Nat.le_succ_of_le (hgap _ rfl)
        · intro g2 hg2
          cases gap with
          | none => cases hg2; exact Or.inr rfl
          | some g0 => cases hg2; exact Or.inl rfl
        · intro k _
          rfl
        · intro k _ _
          rfl
        · intro item2 hitem2 hdl2
          rw [heq] at hitem2
          cases hitem2
          rw [hdli] at hdl2
          cases hdl2
      next hl =>
        split at h
        next e heq2 => cases h
        next cur1 heq2 =>
          cases h
          rw [reconApplyClose.eq_def] at heq2
          refine ⟨(fun g2 hg2 => nomatch hg2), (fun g2 hg2 => nomatch hg2),
            ?_, ?_, ?_⟩
          · intro k hk
            show (setAt cur1 i
              (fun it => { it with dataReconstructed := some 0 }))[k]? = cur[k]?
            rw [setAt_getElem?_ne _ _ _ _ (by omega)]
            cases gap with
            | none => cases heq2; rfl
            | some g0 => exact Hf cur g0 i cur1 heq2 k (Or.inr (Nat.le_of_lt hk))
          · intro k hk hg
            show (setAt cur1 i
              (fun it => { it with dataReconstructed := some 0 }))[k]? = cur[k]?
            rw [setAt_getElem?_ne _ _ _ _ (by omega)]
            cases gap with
            | none => cases heq2; rfl
            | some g0 => exact Hf cur g0 i cur1 heq2 k (Or.inl (hg g0 rfl))
          · intro item2 hitem2 hdl2
            rw [heq] at hitem2
            cases hitem2
            rw [hdli] at hdl2
            cases hdl2
    next hdli =>
      split at h
      next e heq2 => cases h
      next cur1 heq2 =>
        cases h
        rw [reconApplyClose.eq_def] at heq2
        have hcur1i : cur1[i]? = some item := by
          cases gap with
          | none => cases heq2; exact heq
          | some g0 =>
            rw [Hf cur g0 i cur1 heq2 i (Or.inr (Nat.le_refl i))]
            exact heq
        refine ⟨(fun g2 hg2 => nomatch hg2), (fun g2 hg2 => nomatch hg2),
          ?_, ?_, ?_⟩
        · intro k hk
          show (setAt cur1 i
            (fun it => { it with dataReconstructed := some 0 }))[k]? = cur[k]?
          rw [setAt_getElem?_ne _ _ _ _ (by omega)]
          cases gap with
          | none => cases heq2; rfl
          | some g0 => exact Hf cur g0 i cur1 heq2 k (Or.inr (Nat.le_of_lt hk))
        · intro k hk hg
          show (setAt cur1 i
            (fun it => { it with dataReconstructed := some 0 }))[k]? = cur[k]?
          rw [setAt_getElem?_ne _ _ _ _ (by omega)]
          cases gap with
          | none => cases heq2; rfl
          | some g0 => exact Hf cur g0 i cur1 heq2 k (Or.inl (hg g0 rfl))
        · intro item2 hitem2 hdl2
          rw [heq] at hitem2
          cases hitem2
          constructor
          · show (setAt cur1 i
              (fun it => { it with dataReconstructed := some 0 }))[i]? = _
            rw [setAt_getElem?_self cur1 i _ item hcur1i]
          · rfl

theorem reconApplyLoop_frame
    (recon : List TSItem → ℕ → ℕ → Except PyError (List TSItem)) (theta : ℚ)
    (Hf : ∀ cur g j out, recon cur g j = Except.ok out →
      ∀ m, m < g ∨ j ≤ m → out[m]? = cur[m]?) :
    ∀ (n i : ℕ) (cur : List TSItem) (gap : Option ℕ) (out : List TSItem),
      reconApplyLoop recon theta false i n cur gap = Except.ok out →
      (∀ g, gap = some g → g ≤ i) →
      ∀ k, k < i → (∀ g, gap = some g → k < g) → out[k]? = cur[k]? := by
  intro n
  induction n with
  | zero =>
    intro i cur gap out h _ k _ hg
    rw [reconApplyLoop, reconApplyClose.eq_def] at h
    cases gap with
    | none => cases h; rfl
    | some g => exact Hf cur g i out h k (Or.inl (hg g rfl))
  | succ n ih =>
    intro i cur gap out h hgap k hk hg
    rw [reconApplyLoop] at h
    split at h
    next => cases h
    next cur2 gap2 heq =>
      obtain ⟨hg1, hg2, _, hlt, _⟩ :=
        reconApplyStep_spec recon theta Hf i cur gap cur2 gap2 hgap heq
      have h2 := ih (i + 1) cur2 gap2 out h hg1 k (by omega) ?_
      · rw [h2]
        exact hlt k hk hg
      · intro g2 hgg2
        rcases hg2 g2 hgg2 with hcase | hcase
        · exact hg g2 hcase
        · omega

theorem reconApplyLoop_none_preserved
    (recon : List TSItem → ℕ → ℕ → Except PyError (List TSItem)) (theta : ℚ)
    (Hf : ∀ cur g j out, recon cur g j = Except.ok out →
      ∀ m, m < g ∨ j ≤ m → out[m]? = cur[m]?) :
    ∀ (n i : ℕ) (cur : List TSItem) (gap : Option ℕ) (out : List TSItem),
      reconApplyLoop recon theta false i n cur gap = Except.ok out →
      (∀ g, gap = some g → g ≤ i) →
      ∀ k it, i ≤ k → k < i + n → cur[k]? = some it → it.dataLoss = none →
        out[k]? = some { it with dataReconstructed := some 0 } := by
  intro n
  induction n with
  | zero =>
    intro i cur gap out h _ k it hik hkn
    exact absurd hkn (by omega)
  | succ n ih =>
    intro i cur gap out h hgap k it hik hkn hcur hdl
    rw [reconApplyLoop] at h
    split at h
    next => cases h
    next cur2 gap2 heq =>
      obtain ⟨hg1, _, hgt, _, hati⟩ :=
        reconApplyStep_spec recon theta Hf i cur gap cur2 gap2 hgap heq
      by_cases hki : k = i
      · subst hki
        obtain ⟨hres, hgap2⟩ := hati it hcur hdl
        subst hgap2
        have hframe := reconApplyLoop_frame recon theta Hf n (k + 1) cur2 none
          out h hg1 k (by omega) (fun g2 hgg2 => nomatch hgg2)
        rw [hframe, hres]
      · have hcur2 : cur2[k]? = some it := by
          rw [hgt k (by omega)]
          exact hcur
        exact ih (i + 1) cur2 gap2 out h hg1 k it (by omega) (by omega) hcur2 hdl

theorem paFitLoop_filter (P : ℕ) (dst : Bool) (dstf : ℚ → ℚ) (R theta : ℚ) :
    ∀ (ser : List TSItem) (st : List (ℤ × ℚ × ℕ)),
      paFitLoop P dst dstf R theta ser st =
        paFitLoop P dst dstf R theta (ser.filter (fitContributes theta)) st := by
  intro ser
  induction ser with
  | nil => intro st; rfl
  | cons it rest ih =>
    intro st
    by_cases hc : fitContributes theta it
    · rw [List.filter_cons, if_pos (by simp [hc])]
      rw [paFitLoop, paFitLoop, if_pos hc, if_pos hc]
      cases hg : get_periodicity_index it.t R P (dstf it.t) dst with
      | error e => rfl
      | ok ph =>
        show paFitLoop P dst dstf R theta rest (fitAccUpd st ph it.val) =
          paFitLoop P dst dstf R theta (rest.filter (fitContributes theta))
            (fitAccUpd st ph it.val)
        exact ih _
    · rw [List.filter_cons, if_neg (by simp [hc])]
      rw [paFitLoop, if_neg hc]
      exact ih st

/-- C10 (confirmed): an element whose `data_loss` is `None` is never part of a
gap in `Reconstructor.apply` — for any threshold, in the non-inplace result it
keeps its value verbatim and is stamped `data_reconstructed = 0` (the
not-reconstructed mark) — while the periodic-average fit condition accepts
`data_loss = None` unconditionally, so fitting a series equals fitting just
its contributing elements, among which every `data_loss = None` element
always appears whatever the threshold. -/
theorem c10_none_data_loss (md : PARData) (R : ℚ) (dstf : ℚ → ℚ) (theta : ℚ)
    (ser : List TSItem) (res : ApplyResult) (out : List TSItem)
    (happly : reconstructorApply (paReconstructGap md R dstf) theta false false
      ser = Except.ok res)
    (hret : res.returned = some out) :
    (∀ (k : ℕ) (it : TSItem), ser[k]? = some it → it.dataLoss = none →
        out[k]? = some { it with dataReconstructed := some 0 }) ∧
      (∀ (theta2 : ℚ) (it : TSItem), it.dataLoss = none →
        fitContributes theta2 it = true) ∧
      (∀ (P : ℕ) (dst : Bool) (dstf2 : ℚ → ℚ) (R2 theta2 : ℚ)
          (ser2 : List TSItem),
        paFitAverages P dst dstf2 R2 theta2 ser2 =
          paFitAverages P dst dstf2 R2 theta2
            (ser2.filter (fitContributes theta2))) := by
  refine ⟨?_, ?_, ?_⟩
  · rw [reconstructorApply, if_neg (by simp)] at happly
    cases hl : reconApplyLoop (paReconstructGap md R dstf) theta false 0
        (duplicateSeries ser).length (duplicateSeries ser) none with
    | error e =>
      rw [hl] at happly
      cases happly
    | ok cur =>
      rw [hl] at happly
      cases happly
      cases hret
      intro k it hser hdl
      have hlen : k < ser.length := (List.getElem?_eq_some.mp hser).1
      exact reconApplyLoop_none_preserved (paReconstructGap md R dstf) theta
        (paReconstructGap_frame md R dstf) ser.length 0 ser none out hl
        (fun g hg => nomatch hg) k it (Nat.zero_le k) (by omega) hser hdl
  · intro theta2 it h
    simp [fitContributes, h]
  · intro P dst dstf2 R2 theta2 ser2
    unfold paFitAverages
    rw [paFitLoop_filter]

/-- The concrete series used by the C10 witness: a `data_loss = None`
element, then a full gap, then a clean element. -/
def c10wSer : List TSItem :=
  [⟨0, 5, none, none, none⟩, ⟨1, 7, some 1, none, none⟩,
    ⟨2, 9, some 0, none, none⟩]

/-- The series produced by applying the periodic-average reconstructor
(periodicity 1, averages `{0: 9}`, threshold 1) to `c10wSer`. -/
def c10wOut : List TSItem :=
  [⟨0, 5, none, some 0, none⟩, ⟨1, 7, some 1, some 1, none⟩,
    ⟨2, 9, some 0, some 0, none⟩]

/-- C10 witness: the theorem applied to a concrete apply run whose first
element has `data_loss = None` and comes out untouched apart from the
`data_reconstructed = 0` stamp. -/
theorem c10_none_data_loss_witness :
    reconstructorApply
        (paReconstructGap ⟨1, false, [(0, 9)], OffsetMethod.average⟩ 1 dstfZero)
        1 false false c10wSer = Except.ok ⟨c10wSer, some c10wOut⟩ ∧
      (⟨c10wSer, some c10wOut⟩ : ApplyResult).returned = some c10wOut ∧
      ((∀ (k : ℕ) (it : TSItem), c10wSer[k]? = some it → it.dataLoss = none →
          c10wOut[k]? = some { it with dataReconstructed := some 0 }) ∧
        (∀ (theta2 : ℚ) (it : TSItem), it.dataLoss = none →
          fitContributes theta2 it = true) ∧
        (∀ (P : ℕ) (dst : Bool) (dstf2 : ℚ → ℚ) (R2 theta2 : ℚ)
            (ser2 : List TSItem),
          paFitAverages P dst dstf2 R2 theta2 ser2 =
            paFitAverages P dst dstf2 R2 theta2
              (ser2.filter (fitContributes theta2)))) := by
  have happly : reconstructorApply
      (paReconstructGap ⟨1, false, [(0, 9)], OffsetMethod.average⟩ 1 dstfZero)
      1 false false c10wSer = Except.ok ⟨c10wSer, some c10wOut⟩ := by
    norm_num [c10wSer, c10wOut, reconstructorApply, reconApplyLoop,
      reconApplyStep, reconApplyClose, duplicateSeries, setAt,
      paReconstructGap, parOffset, parAvgDiffsLoop, parResidual, parWriteLoop,
      pyGet, get_periodicity_index, ratTrunc, lookupAvg, alookup, int_toNat_lit]
  exact ⟨happly, rfl,
    c10_none_data_loss ⟨1, false, [(0, 9)], OffsetMethod.average⟩ 1 dstfZero 1
      c10wSer ⟨c10wSer, some c10wOut⟩ c10wOut happly rfl⟩
